import Mathlib

/-!
Verification of the wake-word-gated conversational turn controller
(`TranscriptionManager` and friends) of the hackmit-camera-project
repository, as a shallow embedding in Lean 4.

The embedding follows the TypeScript source closely:

* String-level helpers (`cleanText`, `containsWakeWordIn`, `endsWithWakeWord`,
  `removeWakeWord`) are faithful models of the corresponding code, including
  the semantics of the JavaScript regular expressions it builds
  (leftmost match, ordered alternation, lazy dot that does not cross line
  terminators, greedy separator runs).
* The controller state (`TMState`) mirrors the mutable instance fields of
  `TranscriptionManager`; timers are modelled with explicit identifier
  tokens plus ghost pending-timer lists so that scheduling, clearing and
  firing can be reasoned about.
* Asynchronous callbacks (timer firings, the agent response continuation,
  the cooldown) are events of a small step machine; each event-loop
  continuation of the source becomes one atomic step, and side effects are
  recorded as a `TMAction` trace.
-/

/-! ## Character classes used by the source's string processing -/

/-- Whitespace as matched by the JavaScript `\s` class and `String.trim`
(restricted to the characters that can occur here). -/
def isJsWs (c : Char) : Bool := c.isWhitespace

/-- The characters removed by `replace(/[.,!?;:]/g, '')` in `cleanText`. -/
def isCleanedPunct (c : Char) : Bool :=
  c == '.' || c == ',' || c == '!' || c == '?' || c == ';' || c == ':'

/-- The class `[\s,\.]` used between the words of a wake-word pattern in
`removeWakeWord`. -/
def sepChar (c : Char) : Bool := isJsWs c || c == ',' || c == '.'

/-- The class `[\s,\.!]` consumed after a matched wake word in
`removeWakeWord`. -/
def trailChar (c : Char) : Bool := sepChar c || c == '!'

/-- JavaScript line terminators, which the `.` of a regular expression
without the `s` flag does not match. -/
def lineTermChar (c : Char) : Bool :=
  c == '\n' || c == '\r' || c == Char.ofNat 0x2028 || c == Char.ofNat 0x2029

/-! ## List-level string helpers -/

/-- Drop whitespace from both ends, as `String.prototype.trim` does. -/
def trimList (l : List Char) : List Char :=
  ((l.dropWhile isJsWs).reverse.dropWhile isJsWs).reverse

/-- String wrapper for `trimList`, the model of `.trim()`. -/
def trimS (s : String) : String := (trimList s.toList).asString

/-- Lowercase every character, the model of `.toLowerCase()`. -/
def toLowerS (s : String) : String := (s.toList.map Char.toLower).asString

/-- Collapse every run of whitespace into a single space, the model of
`replace(/\s+/g, ' ')`. -/
def collapseWs : List Char → List Char
  | [] => []
  | [c] => if isJsWs c then [' '] else [c]
  | c1 :: c2 :: cs =>
    if isJsWs c1 && isJsWs c2 then collapseWs (c2 :: cs)
    else (if isJsWs c1 then ' ' else c1) :: collapseWs (c2 :: cs)

/-- Is `needle` a leading segment of `hay`? -/
def isSubListAt : List Char → List Char → Bool
  | [], _ => true
  | _ :: _, [] => false
  | a :: as, b :: bs => a == b && isSubListAt as bs

/-- Does `needle` occur contiguously anywhere inside `hay`?  Models
`String.prototype.includes`. -/
def hasSubList (needle : List Char) : List Char → Bool
  | [] => isSubListAt needle []
  | c :: cs => isSubListAt needle (c :: cs) || hasSubList needle cs

/-- Does `hay` end with `needle`?  Models an anchored `needle$` regex test. -/
def endsWithList (needle hay : List Char) : Bool :=
  isSubListAt needle.reverse hay.reverse

/-! ## The wake-word list (verbatim from the source) -/

/-- The `explicitWakeWords` array of the source, in its exact order,
duplicates and capitalisation included. -/
def explicitWakeWords : List String :=
  ["hey mira", "he mira", "hey mara", "he mara", "hey mirror", "he mirror",
   "hey miara", "he miara", "hey mia", "he mia", "hey mural", "he mural",
   "hey amira", "hey myra", "he myra", "hay mira", "hai mira", "hey-mira",
   "he-mira", "heymira", "heymara", "hey mirah", "he mirah", "hey meera", "he meera",
   "Amira", "amira", "a mira", "a mirror", "hey miller", "he miller", "hey milla", "he milla", "hey mila", "he mila",
   "hey miwa", "he miwa", "hey mora", "he mora", "hey moira", "he moira",
   "hey miera", "he miera", "hey mura", "he mura", "hey maira", "he maira",
   "hey meara", "he meara", "hey mara", "he mara", "hey mina", "he mina",
   "hey mirra", "he mirra", "hey mir", "he mir", "hey miro", "he miro",
   "hey miruh", "he miruh", "hey meerah", "he meerah", "hey meira", "he meira",
   "hei mira", "hi mira", "hey mere", "he mere", "hey murra", "he murra",
   "hey mera", "he mera", "hey neera", "he neera", "hey murah", "he murah",
   "hey mear", "he mear", "hey miras", "he miras", "hey miora", "he miora", "hey miri", "he miri",
   "hey maura", "he maura", "hey maya", "he maya", "hey moora", "he moora",
   "hey mihrah", "he mihrah", "ay mira", "ey mira", "yay mira", "hey mihra",
   "hey mera", "hey mira", "hey mila", "hey mirra"]

/-! ## cleanText, containsWakeWord, endsWithWakeWord -/

/-- The normalisation applied by `handleTranscription` and
`endsWithWakeWord`: lowercase, remove `[.,!?;:]`, collapse whitespace runs
to one space, trim. -/
def cleanText (text : String) : String :=
  (trimList (collapseWs ((text.toList.map Char.toLower).filter
    (fun c => !isCleanedPunct c)))).asString

/-- The wake-word test of `handleTranscription`:
`explicitWakeWords.some(word => cleanedText.includes(word))` applied to an
already-cleaned text. -/
def containsWakeWordIn (cleanedText : String) : Bool :=
  explicitWakeWords.any (fun w => hasSubList w.toList cleanedText.toList)

/-- Model of `TranscriptionManager.endsWithWakeWord`: clean the text, then test
whether any wake-word variant matches at its end (the source builds an
anchored case-insensitive `word$` regex for each variant). -/
def endsWithWakeWord (text : String) : Bool :=
  let cleanedText := cleanText text
  explicitWakeWords.any
    (fun w => endsWithList (w.toList.map Char.toLower) cleanedText.toList)

/-! ## removeWakeWord

The source builds the regular expression
`.*?(?:P1|...|Pn)[\s,\.!]*` with the `i` flag, where each `Pk` is a
wake-word variant whose spaces are replaced by `[\s,\.]*`, and removes the
first match with `String.replace`, then trims.  The model below reproduces
that: the match starts at the leftmost possible position (the lazy `.*?`
cannot cross a line terminator), the alternation is tried in list order,
separator and trailing runs are consumed greedily.  Greedy consumption is
exact here because every variant word starts with a letter, which is never
a separator character. -/

/-- Match the characters of one pattern word case-insensitively at the head
of `hay`; return the rest of `hay` on success. -/
def matchWordCI : List Char → List Char → Option (List Char)
  | [], rest => some rest
  | _ :: _, [] => none
  | a :: as, b :: bs =>
    if a.toLower == b.toLower then matchWordCI as bs else none

/-- Match a sequence of pattern words separated by `[\s,\.]*` runs. -/
def matchWordsCI : List (List Char) → List Char → Option (List Char)
  | [], rest => some rest
  | [w], rest => matchWordCI w rest
  | w :: w2 :: ws, rest =>
    match matchWordCI w rest with
    | none => none
    | some r1 => matchWordsCI (w2 :: ws) (r1.dropWhile sepChar)

/-- Split on every space character, as `String.prototype.split(' ')`
does. -/
def splitOnSpace : List Char → List (List Char)
  | [] => [[]]
  | c :: cs =>
    let r := splitOnSpace cs
    if c == ' ' then [] :: r
    else
      match r with
      | [] => [[c]]
      | w :: ws => (c :: w) :: ws

/-- The words of a wake-word variant (`word.split(' ')`). -/
def variantWords (w : String) : List (List Char) :=
  splitOnSpace w.toList

/-- Try the alternation `(?:P1|...|Pn)` at the head of `hay`, in list
order; return the rest after the first succeeding variant. -/
def matchAltCI : List String → List Char → Option (List Char)
  | [], _ => none
  | v :: vs, hay =>
    match matchWordsCI (variantWords v) hay with
    | some r => some r
    | none => matchAltCI vs hay

/-- Scan for the leftmost position where a wake-word variant matches.
Returns `(before, after)` where `before` is everything strictly before the
match and `after` is everything after the variant and its greedy
`[\s,\.!]*` trail. -/
def splitAtWake : List Char → Option (List Char × List Char)
  | [] => none
  | c :: cs =>
    match matchAltCI explicitWakeWords (c :: cs) with
    | some rest => some ([], rest.dropWhile trailChar)
    | none =>
      match splitAtWake cs with
      | some (a, r) => some (c :: a, r)
      | none => none

/-- The part of the pre-match text that the lazy `.*?` cannot reach:
everything up to and including the last line terminator.  `String.replace`
keeps it because `.` does not match line terminators. -/
def keepBeforeWake (a : List Char) : List Char :=
  (a.reverse.dropWhile (fun c => !lineTermChar c)).reverse

/-- List-level body of `removeWakeWord`. -/
def removeWakeWordL (l : List Char) : List Char :=
  match splitAtWake l with
  | none => trimList l
  | some (a, r) => trimList (keepBeforeWake a ++ r)

/-- Model of `TranscriptionManager.removeWakeWord`: delete everything from the start
of the first wake-word occurrence (with the subtleties noted above) through
its trailing separators, then trim; if no variant occurs, the input is just
trimmed. -/
def removeWakeWord (text : String) : String :=
  (removeWakeWordL text.toList).asString

/-- Does the text contain an occurrence of a wake-word variant, in the
sense of the `removeWakeWord` regex? -/
def containsWakeVariant (s : String) : Bool :=
  (splitAtWake s.toList).isSome

/-! ## Data model of the controller -/

/-- The session settings the controller reads on demand, together with the
device capabilities it consults. -/
structure Settings where
  wakeRequiresHeadUp : Bool
  speakResponse : Bool
  hasCamera : Bool
  hasDisplay : Bool
deriving DecidableEq, Repr

/-- A scheduled timer: its `setTimeout` token, its duration in
milliseconds, and (ghost) the listening-turn generation in which it was
scheduled. -/
structure TimerInfo where
  id : Nat
  duration : Nat
  gen : Nat
deriving DecidableEq, Repr

/-- One entry of the `activePhotos` map (photo payloads abstracted as
natural numbers): the pending promise, the resolved data if any, and the
fetch timestamp. -/
structure ActivePhoto where
  hasPromise : Bool
  photoData : Option Nat
  lastPhotoTime : Nat
deriving DecidableEq, Repr

/-- Modelled from the spec: the live-display `TranscriptProcessor` imported
from `./utils` is not among the provided sources.  Per spec section 4.2
(transcript fusion rule) a partial overwrites the previous partial,
finalized fragments accumulate in a capped ordered list, and the display
string is built from retained finals plus the current partial; the last
text handed to it is retrievable (`getLastUserTranscript`) and the whole
buffer can be cleared. -/
structure TranscriptProcessor where
  finalHistory : List String
  partialText : String
  lastUserTranscript : String
  maxFinalTranscripts : Nat
deriving DecidableEq, Repr

/-- Modelled from the spec: `TranscriptProcessor.processString`, following
the fusion rule of spec section 4.2. -/
def TranscriptProcessor.processString (tp : TranscriptProcessor)
    (t : String) (isFinal : Bool) : TranscriptProcessor × String :=
  if isFinal then
    let h :=
      if trimS t = "" then tp.finalHistory
      else
        let h0 := tp.finalHistory ++ [t]
        h0.drop (h0.length - tp.maxFinalTranscripts)
    let tp1 := { tp with finalHistory := h, partialText := "",
                         lastUserTranscript := t }
    (tp1, String.intercalate " " h)
  else
    let tp1 := { tp with partialText := t, lastUserTranscript := t }
    (tp1, String.intercalate " " (tp.finalHistory ++ [t]))

/-- Modelled from the spec: clearing the live-display buffer. -/
def TranscriptProcessor.clearTP : TranscriptProcessor :=
  { finalHistory := [], partialText := "", lastUserTranscript := "",
    maxFinalTranscripts := 3 }

/-- The mutable instance fields of `TranscriptionManager`, plus ghost
bookkeeping for timers: `pendingSettle` / `pendingMax` hold the timers that
are scheduled and have neither fired nor been cleared (at most the one the
corresponding id field refers to), `turnGen` counts opened listening
turns, `agentInFlight` marks the suspended continuation of a dispatched
agent call, and `cooldownPending` the scheduled 2-second cooldown
callback. -/
structure TMState where
  isProcessingQuery : Bool
  isListeningToQuery : Bool
  timeoutId : Option Nat
  maxListeningTimeoutId : Option Nat
  transcriptionStartTime : Nat
  lastHeadPosition : Option String
  headWakeWindowUntilMs : Nat
  headWindowTimeoutId : Option Nat
  subscribed : Bool
  activePhoto : Option ActivePhoto
  transcriptProcessor : TranscriptProcessor
  agentInFlight : Bool
  cooldownPending : Bool
  pendingSettle : List TimerInfo
  pendingMax : List TimerInfo
  turnGen : Nat
  nextTimerId : Nat
deriving DecidableEq, Repr

/-- The observable side effects of one atomic step, in program order. -/
inductive TMAction where
  | playAudio (url : String)
  | requestLocation
  | setMaxTimer (id duration : Nat)
  | clearSettleTimer (id : Nat)
  | clearMaxTimer (id : Nat)
  | setSettleTimer (id duration : Nat)
  | showTextWall (text : String) (durationMs : Nat)
  | requestPhoto
  | fetchTranscript (durationSeconds : Nat)
  | invokeAgent (query : String)
  | setCooldownTimer (durationMs : Nat)
  | speakText (text : String)
  | unsubscribeCall
  | subscribeCall
deriving DecidableEq, Repr

/-- URL of the processing-sound clip. -/
def processingSoundUrl : String := "https://mira.augmentos.cloud/popping.mp3"

/-- URL of the start-listening cue. -/
def startListeningSoundUrl : String := "https://mira.augmentos.cloud/start.mp3"

/-- Error message shown when the transcript fetch fails. -/
def transcriptErrorMsg : String :=
  "Sorry, there was an error retrieving your transcript. Please try again."

/-- Error message shown when the transcript response is malformed. -/
def transcriptInvalidMsg : String :=
  "Sorry, the transcript format was invalid. Please try again."

/-- Message shown when the agent finds no answer. -/
def noAnswerMsg : String := "Sorry, I couldn't find an answer to that."

/-- Message shown when the agent call throws. -/
def processingErrorMsg : String :=
  "Sorry, there was an error processing your request."

/-! ## wrapText

`ConversationTranscriptProcessor.wrapText` is in the sources; the string
`wrapText` helper imported from `./utils` by the controller is not, but per
the spec it reflows text to a fixed column width, so it is modelled as the
same greedy algorithm joined with newlines. -/

/-- One backward scan of `wrapText`: the largest index `i ≤ start` whose
character is a space, else `0` (the `while splitIndex > 0 && charAt ≠ ' '`
loop). -/
def findSplitIx (text : List Char) : Nat → Nat
  | 0 => 0
  | j + 1 => if text.getD (j + 1) 'x' == ' ' then j + 1 else findSplitIx text j

/-- The `while (text !== "")` loop of
`ConversationTranscriptProcessor.wrapText`, with explicit fuel (each
iteration strictly shortens the text when `maxLen > 0`). -/
def wrapTextGo : Nat → List Char → Nat → List (List Char)
  | 0, _, _ => []
  | _, [], _ => []
  | fuel + 1, text, maxLen =>
    if text.length ≤ maxLen then [text]
    else
      let si0 := findSplitIx text maxLen
      let si := if si0 == 0 then maxLen else si0
      let chunk := trimList (text.take si)
      let rest := trimList (text.drop si)
      chunk :: wrapTextGo fuel rest maxLen

/-- Model of `ConversationTranscriptProcessor.wrapText`: greedy word wrap at
`maxLineLength` columns. -/
def ConversationTranscriptProcessor.wrapText (text : String)
    (maxLineLength : Nat) : List String :=
  (wrapTextGo (text.length + 1) text.toList maxLineLength).map List.asString

/-- Modelled from the spec: the string-valued `wrapText` helper from
`./utils`, the wrapped lines joined with newlines. -/
def wrapTextUtil (text : String) (cols : Nat) : String :=
  String.intercalate "\n" (ConversationTranscriptProcessor.wrapText text cols)

/-! ## ConversationTranscriptProcessor (src/utils) -/

/-- The fields of `ConversationTranscriptProcessor` (constructor defaults:
30 characters per line, 3 lines, 10 retained final transcripts). -/
structure ConversationTranscriptProcessor where
  maxCharsPerLine : Nat
  maxLines : Nat
  lines : List String
  partialText : String
  lastUserTranscript : String
  finalTranscriptHistory : List String
  maxFinalTranscripts : Nat
  currentDisplayLines : List String
deriving DecidableEq, Repr

/-- The `ConversationTranscriptProcessor` constructor. -/
def ConversationTranscriptProcessor.init (maxCharsPerLine maxLines
    maxFinalTranscripts : Nat) : ConversationTranscriptProcessor :=
  { maxCharsPerLine := maxCharsPerLine, maxLines := maxLines, lines := [],
    partialText := "", lastUserTranscript := "", finalTranscriptHistory := [],
    maxFinalTranscripts := maxFinalTranscripts, currentDisplayLines := [] }

/-- Model of `getCombinedTranscriptHistory`: the retained finals joined by spaces. -/
def ConversationTranscriptProcessor.getCombinedTranscriptHistory
    (p : ConversationTranscriptProcessor) : String :=
  String.intercalate " " p.finalTranscriptHistory

/-- Model of `addToTranscriptHistory`: ignore empty transcripts, append, then shift
out the oldest entries while over `maxFinalTranscripts`. -/
def ConversationTranscriptProcessor.addToTranscriptHistory
    (p : ConversationTranscriptProcessor) (transcript : String) :
    ConversationTranscriptProcessor :=
  if trimS transcript = "" then p
  else
    let h := p.finalTranscriptHistory ++ [transcript]
    { p with finalTranscriptHistory := h.drop (h.length - p.maxFinalTranscripts) }

/-- The pad-then-shift normalisation of the display lines: push empty lines
while under `maxLines`, shift out the oldest while over. -/
def padTrimLines (ls : List String) (maxLines : Nat) : List String :=
  let padded := ls ++ List.replicate (maxLines - ls.length) ""
  padded.drop (padded.length - maxLines)

/-- Model of `ConversationTranscriptProcessor.processString`: a non-final text
overwrites the stored partial (history plus partial is rewrapped for
display); a final text clears the partial and is appended to the finalized
history.  A `none` text stands for the JavaScript `null`. -/
def ConversationTranscriptProcessor.processString
    (p : ConversationTranscriptProcessor) (newTextIn : Option String)
    (isFinal : Bool) : ConversationTranscriptProcessor × String :=
  let newText := match newTextIn with
    | none => ""
    | some t => trimS t
  if !isFinal then
    let p1 := { p with partialText := newText, lastUserTranscript := newText }
    let combined := p1.getCombinedTranscriptHistory ++ " " ++ newText
    let disp := padTrimLines
      (ConversationTranscriptProcessor.wrapText combined p.maxCharsPerLine)
      p.maxLines
    ({ p1 with currentDisplayLines := disp }, String.intercalate "\n" disp)
  else
    let p1 := { p with partialText := "" }
    let p2 := p1.addToTranscriptHistory newText
    let disp := padTrimLines
      (ConversationTranscriptProcessor.wrapText
        p2.getCombinedTranscriptHistory p.maxCharsPerLine)
      p.maxLines
    ({ p2 with currentDisplayLines := disp }, String.intercalate "\n" disp)

/-! ## The controller's atomic steps -/

/-- Ceiling division on naturals, the model of `Math.ceil(a / b)`. -/
def natCeilDiv (a b : Nat) : Nat := (a + b - 1) / b

/-- The `durationSeconds` computation at the top of `processQuery`:
elapsed listening time if a start time was recorded, else the firing
timer's own duration, else 3 seconds. -/
def durationSecondsOf (s : TMState) (timerDuration : Nat) (now : Nat) : Nat :=
  if 0 < s.transcriptionStartTime then
    max 1 (natCeilDiv (now - s.transcriptionStartTime) 1000)
  else if timerDuration ≠ 0 then max 1 (natCeilDiv timerDuration 1000)
  else 3

/-- The photo-maintenance block of `handleTranscription`: discard a cached
photo older than 5 seconds, then, if no photo is cached and the device has
a camera, store a fresh pending fetch. -/
def photoStep (hasCamera : Bool) (ap : Option ActivePhoto) (now : Nat) :
    Option ActivePhoto × List TMAction :=
  let ap1 := match ap with
    | some p => if p.lastPhotoTime + 5000 < now then none else some p
    | none => none
  match ap1 with
  | some p => (some p, [])
  | none =>
    if hasCamera then
      (some { hasPromise := true, photoData := none, lastPhotoTime := now },
       [TMAction.requestPhoto])
    else (none, [])

/-- The live-display block of `handleTranscription`: show `Listening...`
when nothing follows the wake word (clearing a stale partial first), else
feed the stripped text to the transcript processor and show the result. -/
def displayStep (tp : TranscriptProcessor) (text : String) (isFinal : Bool) :
    TranscriptProcessor × List TMAction :=
  let displayText := removeWakeWord text
  if trimS displayText = "" then
    let tp1 :=
      if trimS tp.lastUserTranscript ≠ "" then (tp.processString "" false).1
      else tp
    (tp1, [TMAction.showTextWall "Listening..." 10000])
  else
    let pr := tp.processString displayText isFinal
    (pr.1,
     [TMAction.showTextWall ("Listening...\n\n" ++ trimS pr.2) 20000])

/-- The actions of the turn-opening branch of `handleTranscription`:
optional start-listening cue, best-effort location lookup, and the
15-second maximum-listening timer. -/
def listenEntryActs (st : Settings) (maxTimerId : Nat) : List TMAction :=
  (if st.speakResponse || !st.hasDisplay
   then [TMAction.playAudio startListeningSoundUrl] else []) ++
  [TMAction.requestLocation, TMAction.setMaxTimer maxTimerId 15000]

/-- Model of `TranscriptionManager.handleTranscription`, one atomic step.  Drops the
event while a query is processing; gates wake-word detection (and the
optional head-up window) when not yet listening; maintains the photo slot;
opens the turn (max-listening timer, cue, location) on first detection;
updates the live display; then cancels and reschedules the settle timer
with the duration selected from finality and `endsWithWakeWord`. -/
def handleTranscription (st : Settings) (s : TMState) (text : String)
    (isFinal : Bool) (now : Nat) : TMState × List TMAction :=
  if s.isProcessingQuery then (s, [])
  else
    let cleanedText := cleanText text
    let hasWakeWord := containsWakeWordIn cleanedText
    if !s.isListeningToQuery && !hasWakeWord then (s, [])
    else if !s.isListeningToQuery && st.wakeRequiresHeadUp &&
            !(decide (now ≤ s.headWakeWindowUntilMs)) then (s, [])
    else
      let photoR := photoStep st.hasCamera s.activePhoto now
      let entryActs :=
        if s.isListeningToQuery then [] else listenEntryActs st s.nextTimerId
      let s1 : TMState :=
        if s.isListeningToQuery then { s with activePhoto := photoR.1 }
        else
          { s with activePhoto := photoR.1,
                   maxListeningTimeoutId := some s.nextTimerId,
                   pendingMax := s.pendingMax ++
                     [⟨s.nextTimerId, 15000, s.turnGen + 1⟩],
                   turnGen := s.turnGen + 1,
                   nextTimerId := s.nextTimerId + 1 }
      let s2 := { s1 with isListeningToQuery := true }
      let s3 :=
        if s2.transcriptionStartTime = 0 then
          { s2 with transcriptionStartTime := now }
        else s2
      let dispR := displayStep s3.transcriptProcessor text isFinal
      let s4 := { s3 with transcriptProcessor := dispR.1 }
      let timerDuration :=
        if isFinal then (if endsWithWakeWord cleanedText then 10000 else 1500)
        else 3000
      let clearActs := match s4.timeoutId with
        | some oldId => [TMAction.clearSettleTimer oldId]
        | none => []
      let psCleared := match s4.timeoutId with
        | some oldId => s4.pendingSettle.filter (fun u => u.id != oldId)
        | none => s4.pendingSettle
      let newId := s4.nextTimerId
      let s5 := { s4 with timeoutId := some newId,
                          pendingSettle := psCleared ++
                            [⟨newId, timerDuration, s4.turnGen⟩],
                          nextTimerId := newId + 1 }
      (s5, photoR.2 ++ entryActs ++ dispR.2 ++ clearActs ++
           [TMAction.setSettleTimer newId timerDuration])

/-- Model of `TranscriptionManager.ensureTranscriptionSubscribed`: subscribe only if
not already subscribed. -/
def ensureTranscriptionSubscribed (s : TMState) : TMState × List TMAction :=
  if s.subscribed then (s, [])
  else ({ s with subscribed := true }, [TMAction.subscribeCall])

/-- Model of `TranscriptionManager.ensureTranscriptionUnsubscribed`: drop the
subscription only when one is active and no listening turn is open. -/
def ensureTranscriptionUnsubscribed (s : TMState) : TMState × List TMAction :=
  if s.subscribed && !s.isListeningToQuery then
    ({ s with subscribed := false }, [TMAction.unsubscribeCall])
  else (s, [])

/-- Model of `TranscriptionManager.initTranscriptionSubscription`: start
unsubscribed in head-gate mode, subscribed otherwise. -/
def initTranscriptionSubscription (st : Settings) (s : TMState) :
    TMState × List TMAction :=
  if st.wakeRequiresHeadUp then ensureTranscriptionUnsubscribed s
  else ensureTranscriptionSubscribed s

/-- The controller state as built by the `TranscriptionManager`
constructor (before `initTranscriptionSubscription` runs). -/
def baseState : TMState :=
  { isProcessingQuery := false, isListeningToQuery := false,
    timeoutId := none, maxListeningTimeoutId := none,
    transcriptionStartTime := 0, lastHeadPosition := none,
    headWakeWindowUntilMs := 0, headWindowTimeoutId := none,
    subscribed := false, activePhoto := none,
    transcriptProcessor := TranscriptProcessor.clearTP,
    agentInFlight := false, cooldownPending := false,
    pendingSettle := [], pendingMax := [], turnGen := 0, nextTimerId := 0 }

/-- The controller state right after construction. -/
def initialState (st : Settings) : TMState :=
  (initTranscriptionSubscription st baseState).1

/-- Clear one timer field: emit `clearTimeout`, null the field, drop the
timer from the pending list. -/
def clearTimerField (fld : Option Nat) (pend : List TimerInfo)
    (mk : Nat → TMAction) : Option Nat × List TimerInfo × List TMAction :=
  match fld with
  | some id => (none, pend.filter (fun u => u.id != id), [mk id])
  | none => (none, pend, [])

/-- The `finally` block of `processQuery`: reset the start time, clear both
timers, close the listening turn, unsubscribe in head-gate mode once the
head-up window has lapsed, clear the live-display buffer, and schedule the
2-second cooldown that will re-arm `isProcessingQuery`. -/
def finallyStep (st : Settings) (s : TMState) (now : Nat) :
    TMState × List TMAction :=
  let cs := clearTimerField s.timeoutId s.pendingSettle TMAction.clearSettleTimer
  let cm := clearTimerField s.maxListeningTimeoutId s.pendingMax
    TMAction.clearMaxTimer
  let s1 := { s with transcriptionStartTime := 0,
                     timeoutId := none, pendingSettle := cs.2.1,
                     maxListeningTimeoutId := none, pendingMax := cm.2.1,
                     isListeningToQuery := false }
  let us :=
    if st.wakeRequiresHeadUp && decide (s1.headWakeWindowUntilMs < now) then
      ensureTranscriptionUnsubscribed s1
    else (s1, [])
  let s2 := { us.1 with transcriptProcessor := TranscriptProcessor.clearTP,
                        cooldownPending := true }
  (s2, cs.2.2 ++ cm.2.2 ++ us.2 ++ [TMAction.setCooldownTimer 2000])

/-- The outcome of the transcript-replay fetch awaited by `processQuery`:
a network/HTTP/parse failure, a structurally invalid response, or a
segment list. -/
inductive FetchOutcome where
  | fail
  | invalid
  | ok (segments : List String)
deriving DecidableEq, Repr

/-- Model of `TranscriptionManager.processQuery` up to the agent call (one atomic
step; the awaited agent response is delivered by `agentDoneStep`).
Computes the replay duration, fetches the transcript, bails out with an
error message on failure, re-checks the single-flight guard, strips the
wake word, takes the empty-query fast path, or dispatches the query to the
agent. -/
def processQuery (st : Settings) (s : TMState) (timerDuration : Nat)
    (fr : FetchOutcome) (now : Nat) : TMState × List TMAction :=
  let fetchAct := TMAction.fetchTranscript (durationSecondsOf s timerDuration now)
  match fr with
  | .fail =>
    (s, [fetchAct, TMAction.showTextWall (wrapTextUtil transcriptErrorMsg 30) 5000])
  | .invalid =>
    (s, [fetchAct, TMAction.showTextWall (wrapTextUtil transcriptInvalidMsg 30) 5000])
  | .ok segments =>
    let rawCombinedText := String.intercalate " " segments
    if s.isProcessingQuery then (s, [fetchAct])
    else
      let s1 := { s with isProcessingQuery := true }
      let query := removeWakeWord rawCombinedText
      if trimS query = "" then
        ({ s1 with isProcessingQuery := false },
         [fetchAct, TMAction.showTextWall (wrapTextUtil "No query provided." 30) 5000])
      else
        let audioActs :=
          if st.speakResponse || !st.hasDisplay
          then [TMAction.playAudio processingSoundUrl] else []
        let displayQuery :=
          if 60 < query.length then trimS (query.toList.take 60).asString ++ " ..."
          else query
        ({ s1 with agentInFlight := true },
         [fetchAct] ++ audioActs ++
         [TMAction.showTextWall
            (wrapTextUtil ("Processing query: " ++ displayQuery) 30) 8000,
          TMAction.invokeAgent query])

/-- The agent's answer as seen by `processQuery`: falsy, the
take-over-the-display sentinel, text, or a thrown error. -/
inductive AgentResponse where
  | empty
  | sentinel
  | text (t : String)
  | errorThrown
deriving DecidableEq, Repr

/-- Model of `showOrSpeakText`: always show; additionally speak when
`speak_response` is set or the device has no display. -/
def showOrSpeakActs (st : Settings) (t : String) : List TMAction :=
  [TMAction.showTextWall (wrapTextUtil t 30) 5000] ++
  (if st.speakResponse || !st.hasDisplay then [TMAction.speakText t] else [])

/-- The continuation of `processQuery` after the awaited agent call
settles: render the response (the JSON event switch recognises no event
tag, so text always falls through to `showOrSpeakText`), then run the
`finally` block. -/
def agentDoneStep (st : Settings) (s : TMState) (resp : AgentResponse)
    (now : Nat) : TMState × List TMAction :=
  if s.agentInFlight then
    let s0 := { s with agentInFlight := false }
    let respActs := match resp with
      | .empty => showOrSpeakActs st noAnswerMsg
      | .sentinel => []
      | .text t => showOrSpeakActs st t
      | .errorThrown => showOrSpeakActs st processingErrorMsg
    let fin := finallyStep st s0 now
    (fin.1, respActs ++ fin.2)
  else (s, [])

/-- The 2-second cooldown callback scheduled by the `finally` block:
re-arm `isProcessingQuery`. -/
def cooldownFireStep (s : TMState) : TMState × List TMAction :=
  if s.cooldownPending then
    ({ s with isProcessingQuery := false, cooldownPending := false }, [])
  else (s, [])

/-- A settle timer fires: only a still-pending timer can fire; it is
consumed and its callback calls `processQuery` with the captured
duration. -/
def settleFireStep (st : Settings) (s : TMState) (id : Nat)
    (fr : FetchOutcome) (now : Nat) : TMState × List TMAction :=
  match s.pendingSettle.find? (fun t => t.id == id) with
  | some t =>
    let s1 := { s with pendingSettle := s.pendingSettle.filter (fun u => u.id != id) }
    processQuery st s1 t.duration fr now
  | none => (s, [])

/-- The maximum-listening timer fires: only a still-pending timer can
fire; its callback clears the settle timer and forces
`processQuery` with a 15000 ms duration. -/
def maxFireStep (st : Settings) (s : TMState) (id : Nat)
    (fr : FetchOutcome) (now : Nat) : TMState × List TMAction :=
  match s.pendingMax.find? (fun t => t.id == id) with
  | some _ =>
    let s1 := { s with pendingMax := s.pendingMax.filter (fun u => u.id != id) }
    let cs := clearTimerField s1.timeoutId s1.pendingSettle TMAction.clearSettleTimer
    let s2 := { s1 with timeoutId := none, pendingSettle := cs.2.1 }
    let pr := processQuery st s2 15000 fr now
    (pr.1, cs.2.2 ++ pr.2)
  | none => (s, [])

/-- Model of `TranscriptionManager.handleHeadPosition`: outside head-gate mode only
record the position; in head-gate mode a down-to-up transition opens a
10-second wake window, subscribes, and (re)starts the window-expiry
timer. -/
def handleHeadPosition (st : Settings) (s : TMState) (posRaw : String)
    (now : Nat) : TMState × List TMAction :=
  let current := toLowerS posRaw
  if current = "" then (s, [])
  else if !st.wakeRequiresHeadUp then
    ({ s with lastHeadPosition := some current }, [])
  else if s.lastHeadPosition == some "down" && current == "up" then
    let s1 := { s with headWakeWindowUntilMs := now + 10000 }
    let sub := ensureTranscriptionSubscribed s1
    ({ sub.1 with headWindowTimeoutId := some sub.1.nextTimerId,
                  nextTimerId := sub.1.nextTimerId + 1,
                  lastHeadPosition := some current }, sub.2)
  else ({ s with lastHeadPosition := some current }, [])

/-- Model of the `Promise.race` of the pending photo promise against a 3000 ms timer
resolving `null`: the photo wins only if it settles within the bound.  The
promise's behaviour is summarised by its settle delay and payload
(`none`: it never settles). -/
def photoRace3000 (resolveAfterMs : Option (Nat × Nat)) : Option Nat :=
  match resolveAfterMs with
  | some (t, d) => if t ≤ 3000 then some d else none
  | none => none

/-- Model of `TranscriptionManager.getPhoto`: return cached photo data when
present; otherwise wait on the outstanding promise for at most 3000 ms;
`null` when nothing resolves in time or no fetch is outstanding. -/
def getPhoto (activePhoto : Option ActivePhoto)
    (resolveAfterMs : Option (Nat × Nat)) : Option Nat :=
  match activePhoto with
  | some p =>
    match p.photoData with
    | some d => some d
    | none => if p.hasPromise then photoRace3000 resolveAfterMs else none
  | none => none

/-! ## The event machine -/

/-- The events a session's controller reacts to: transcription delivery,
timer firings (with the transcript-fetch outcome their callback will
observe), the agent-response continuation, and the cooldown callback. -/
inductive Ev where
  | trans (text : String) (isFinal : Bool) (now : Nat)
  | settleFire (id : Nat) (now : Nat) (fr : FetchOutcome)
  | maxFire (id : Nat) (now : Nat) (fr : FetchOutcome)
  | agentDone (resp : AgentResponse) (now : Nat)
  | cooldownFire
deriving DecidableEq, Repr

/-- One atomic event-loop step. -/
def step (st : Settings) (s : TMState) : Ev → TMState × List TMAction
  | .trans text isFinal now => handleTranscription st s text isFinal now
  | .settleFire id now fr => settleFireStep st s id fr now
  | .maxFire id now fr => maxFireStep st s id fr now
  | .agentDone resp now => agentDoneStep st s resp now
  | .cooldownFire => cooldownFireStep s

/-- Run a sequence of events, accumulating the action trace. -/
def run (st : Settings) (s : TMState) : List Ev → TMState × List TMAction
  | [] => (s, [])
  | e :: es =>
    let r := step st s e
    let r2 := run st r.1 es
    (r2.1, r.2 ++ r2.2)

/-- Count the agent-backend invocations in an action trace. -/
def countInvokeAgent (acts : List TMAction) : Nat :=
  acts.countP (fun a => match a with
    | TMAction.invokeAgent _ => true
    | _ => false)

/-- Is this event the observation of a query response (the agent
continuation or the cooldown it schedules)? -/
def isResponseObservation : Ev → Bool
  | .agentDone _ _ => true
  | .cooldownFire => true
  | _ => false

/-- The timer invariant: each timer slot is cleared before it is replaced
(so at most one settle and one max-listening timer are ever pending), and
every pending timer belongs to the currently open listening turn — it was
scheduled in the current turn generation, the turn is still open, and the
corresponding id field references it.  Since only pending timers can
fire, no settle or max-listening timer can fire after its turn ended. -/
def TimerInv (s : TMState) : Prop :=
  s.pendingSettle.length ≤ 1 ∧ s.pendingMax.length ≤ 1 ∧
  (∀ t ∈ s.pendingSettle,
    t.gen = s.turnGen ∧ s.isListeningToQuery = true ∧ s.timeoutId = some t.id) ∧
  (∀ t ∈ s.pendingMax,
    t.gen = s.turnGen ∧ s.isListeningToQuery = true ∧
    s.maxListeningTimeoutId = some t.id)

instance (s : TMState) : Decidable (TimerInv s) := by
  unfold TimerInv; infer_instance

/-! ## Concrete instances used in witnesses and counterexamples -/

/-- Default settings: head gate off, silent responses, camera and display
present. -/
def stDefault : Settings :=
  { wakeRequiresHeadUp := false, speakResponse := false,
    hasCamera := true, hasDisplay := true }

/-- Settings with the optional head gate enabled. -/
def stHeadGate : Settings :=
  { stDefault with wakeRequiresHeadUp := true }

/-- A reachable listening state: one wake-word transcription processed
from the initial state (max-listening timer and settle timer pending). -/
def exListening : TMState :=
  (handleTranscription stDefault (initialState stDefault)
    "hey mira what time is it" true 1000).1

/-- A reachable processing state: the settle timer of `exListening` fired
and the query was dispatched to the agent. -/
def exProcessing : TMState :=
  (settleFireStep stDefault exListening 1
    (FetchOutcome.ok ["hey mira what time is it"]) 2500).1

/-- A reachable post-response state: the agent answered and the 2-second
cooldown is pending. -/
def exAfterResponse : TMState :=
  (agentDoneStep stDefault exProcessing (AgentResponse.text "It is noon.")
    4000).1

/-- A `ConversationTranscriptProcessor` whose finalized history is at its
retention cap. -/
def ctpAtCap : ConversationTranscriptProcessor :=
  { ConversationTranscriptProcessor.init 30 3 10 with
    finalTranscriptHistory := ["a", "b", "c", "d", "e", "f", "g", "h", "i", "j"] }

/-! ## Helper lemmas about dropWhile and trim -/

theorem dropWhile_idem {α : Type} (p : α → Bool) (l : List α) :
    (l.dropWhile p).dropWhile p = l.dropWhile p := by
  induction l with
  | nil => rfl
  | cons a l ih =>
    cases h : p a
    · simp [List.dropWhile_cons, h]
    · simp [List.dropWhile_cons, h, ih]

theorem dropWhile_append_singleton {α : Type} (p : α → Bool) (c : α)
    (hc : p c = false) (l : List α) :
    (l ++ [c]).dropWhile p = l.dropWhile p ++ [c] := by
  induction l with
  | nil => simp [List.dropWhile_cons, hc]
  | cons a l ih =>
    cases h : p a <;> simp [List.dropWhile_cons, h, ih]

theorem dropWhile_head_false {α : Type} (p : α → Bool) {l : List α} {c : α}
    {w : List α} (h : l.dropWhile p = c :: w) : p c = false := by
  induction l with
  | nil => exact absurd h (by simp)
  | cons a l ih =>
    rw [List.dropWhile_cons] at h
    cases hp : p a
    · rw [hp] at h
      simp only [Bool.false_eq_true, if_false, List.cons.injEq] at h
      exact h.1 ▸ hp
    · rw [hp] at h
      simp only [if_true] at h
      exact ih h

theorem dropWhile_trimList (l : List Char) :
    (trimList l).dropWhile isJsWs = trimList l := by
  unfold trimList
  cases ha : l.dropWhile isJsWs with
  | nil => simp
  | cons c a =>
    have hc : isJsWs c = false := dropWhile_head_false _ ha
    rw [List.reverse_cons, dropWhile_append_singleton _ _ hc,
        List.reverse_append]
    simp [List.dropWhile_cons, hc]

theorem trimList_trimList (l : List Char) :
    trimList (trimList l) = trimList l := by
  show (((trimList l).dropWhile isJsWs).reverse.dropWhile isJsWs).reverse
        = trimList l
  rw [dropWhile_trimList]
  have h2 : (trimList l).reverse = (l.dropWhile isJsWs).reverse.dropWhile isJsWs := by
    show ((((l.dropWhile isJsWs).reverse.dropWhile isJsWs)).reverse).reverse = _
    rw [List.reverse_reverse]
  rw [h2, dropWhile_idem]
  rfl

theorem toList_asString (l : List Char) : (List.asString l).toList = l := rfl

theorem trimS_trimS (s : String) : trimS (trimS s) = trimS s := by
  unfold trimS
  rw [toList_asString, trimList_trimList]

theorem trimS_removeWakeWord (x : String) :
    trimS (removeWakeWord x) = removeWakeWord x := by
  unfold removeWakeWord trimS
  rw [toList_asString]
  cases h : splitAtWake x.toList with
  | none =>
    simp only [String.toList] at h
    simp [removeWakeWordL, h, trimList_trimList]
  | some pr =>
    simp only [String.toList] at h
    simp [removeWakeWordL, h, trimList_trimList]

theorem removeWakeWord_of_no_variant (y : String)
    (hy : containsWakeVariant y = false) : removeWakeWord y = trimS y := by
  have h : splitAtWake y.toList = none := by
    cases h : splitAtWake y.toList with
    | none => rfl
    | some pr => rw [containsWakeVariant, h] at hy; simp at hy
  show (removeWakeWordL y.toList).asString = trimS y
  simp only [String.toList] at h
  simp [removeWakeWordL, h, trimS]

/-! ## Claim C3: behaviour of removeWakeWord under repetition -/

/-- C3 (amended).  `removeWakeWord` strips only the first wake-word
occurrence per application, so it is not idempotent in general; it is
idempotent on any input whose once-stripped result contains no wake-word
variant, and on an input containing no wake-word variant it returns the
input trimmed of surrounding whitespace. -/
theorem claim3_removeWakeWord_amended (x : String) :
    (containsWakeVariant x = false → removeWakeWord x = trimS x) ∧
    (containsWakeVariant (removeWakeWord x) = false →
      removeWakeWord (removeWakeWord x) = removeWakeWord x) := by
  refine ⟨removeWakeWord_of_no_variant x, fun h => ?_⟩
  rw [removeWakeWord_of_no_variant _ h, trimS_removeWakeWord]

/-- C3 counterexample.  The claim as stated is false: applying
`removeWakeWord` twice to `"hey mira hey mira x"` strips a second
wake-word occurrence, so the result differs from a single application; and
on the variant-free input `"  hello  "` the function does not return the
input unchanged (it trims it). -/
theorem claim3_counterexample :
    removeWakeWord (removeWakeWord "hey mira hey mira x") ≠
      removeWakeWord "hey mira hey mira x" ∧
    containsWakeVariant "  hello  " = false ∧
    removeWakeWord "  hello  " ≠ "  hello  " := by
  decide

/-- C3 witness: the amended theorem applied at concrete inputs. -/
theorem claim3_witness :
    removeWakeWord "what time is it" = trimS "what time is it" ∧
    removeWakeWord (removeWakeWord "hey mira hello") =
      removeWakeWord "hey mira hello" :=
  ⟨(claim3_removeWakeWord_amended "what time is it").1 (by decide),
   (claim3_removeWakeWord_amended "hey mira hello").2 (by decide)⟩

/-! ## Claim C7: transcript-fusion history growth -/

/-- C7 (amended).  A non-final event never touches the finalized history
(it only overwrites the stored partial), and a non-final event followed by
a final event with the same text grows the finalized history by exactly
one entry provided the text is nonempty after trimming and the history is
below its retention cap; at the cap the push is followed by a shift, so
the length stays at the cap. -/
theorem claim7_history_growth_amended (p : ConversationTranscriptProcessor)
    (text : String) (h1 : trimS text ≠ "")
    (h2 : p.finalTranscriptHistory.length < p.maxFinalTranscripts) :
    (((p.processString (some text) false).1.processString (some text) true).1.finalTranscriptHistory.length
        = p.finalTranscriptHistory.length + 1) ∧
    ((p.processString (some text) false).1.finalTranscriptHistory
        = p.finalTranscriptHistory) ∧
    ((p.processString (some text) false).1.partialText = trimS text) ∧
    (∀ (q : ConversationTranscriptProcessor) (t : String),
      ((q.processString (some t) false).1.finalTranscriptHistory
        = q.finalTranscriptHistory) ∧
      ((q.processString (some t) false).1.partialText = trimS t)) := by
  have hrepeat : ∀ (q : ConversationTranscriptProcessor) (t : String),
      ((q.processString (some t) false).1.finalTranscriptHistory
        = q.finalTranscriptHistory) ∧
      ((q.processString (some t) false).1.partialText = trimS t) := by
    intro q t
    simp [ConversationTranscriptProcessor.processString]
  have hlen : (((p.processString (some text) false).1.processString
      (some text) true).1.finalTranscriptHistory.length
        = p.finalTranscriptHistory.length + 1) := by
    simp only [ConversationTranscriptProcessor.processString,
      ConversationTranscriptProcessor.addToTranscriptHistory, Bool.not_false,
      Bool.not_true, if_true, if_false, trimS_trimS]
    simp only [trimS_trimS, h1, if_neg, ite_false]
    have hsub : p.finalTranscriptHistory.length + 1 - p.maxFinalTranscripts = 0 :=
      Nat.sub_eq_zero_of_le h2
    simp [hsub]
  exact ⟨hlen, (hrepeat p text).1, (hrepeat p text).2, hrepeat⟩

/-- C7 counterexample.  The claim as stated is false at two concrete
inputs: with empty text the final event adds nothing to the history, and
with the history at its retention cap the push is cancelled by a shift, so
in neither case does the pair of events grow the history by exactly one
entry. -/
theorem claim7_counterexample :
    ((((ConversationTranscriptProcessor.init 30 3 10).processString
        (some "") false).1.processString (some "") true).1.finalTranscriptHistory.length ≠
      (ConversationTranscriptProcessor.init 30 3 10).finalTranscriptHistory.length + 1) ∧
    (((ctpAtCap.processString (some "x") false).1.processString
        (some "x") true).1.finalTranscriptHistory.length ≠
      ctpAtCap.finalTranscriptHistory.length + 1) := by
  decide

/-- C7 witness: the amended theorem applied at a concrete processor and
text. -/
theorem claim7_witness :
    trimS "hello" ≠ "" ∧
    (((ConversationTranscriptProcessor.init 30 3 10).processString
        (some "hello") false).1.processString (some "hello") true).1.finalTranscriptHistory.length
      = (ConversationTranscriptProcessor.init 30 3 10).finalTranscriptHistory.length + 1 :=
  ⟨by decide,
   (claim7_history_growth_amended (ConversationTranscriptProcessor.init 30 3 10)
      "hello" (by decide) (by decide)).1⟩

/-! ## Claim C2: the empty-query fast path -/

/-- C2 (amended).  When the combined transcript strips to an empty query,
the agent backend is never invoked and `No query provided.` is rendered,
but the early `return` sits before the `try`/`finally` of `processQuery`,
so the only state change is resetting `isProcessingQuery` — the listening
flag, the settle and max-listening timers, the transcript start time and
the live-display buffer are all left exactly as they were (the controller
does not return to Idle). -/
theorem claim2_empty_query_amended (st : Settings) (s : TMState)
    (timerDuration : Nat) (segments : List String) (now : Nat)
    (h1 : s.isProcessingQuery = false)
    (h2 : trimS (removeWakeWord (String.intercalate " " segments)) = "") :
    processQuery st s timerDuration (FetchOutcome.ok segments) now =
      (s, [TMAction.fetchTranscript (durationSecondsOf s timerDuration now),
           TMAction.showTextWall "No query provided." 5000]) ∧
    countInvokeAgent
      (processQuery st s timerDuration (FetchOutcome.ok segments) now).2 = 0 := by
  have hw : wrapTextUtil "No query provided." 30 = "No query provided." := by
    decide
  have hmain : processQuery st s timerDuration (FetchOutcome.ok segments) now =
      (s, [TMAction.fetchTranscript (durationSecondsOf s timerDuration now),
           TMAction.showTextWall "No query provided." 5000]) := by
    cases s
    simp only [TMState.isProcessingQuery] at h1
    subst h1
    simp [processQuery, h2, hw]
  exact ⟨hmain, by rw [hmain]; rfl⟩

/-- C2 counterexample.  From the reachable listening state `exListening`
(settle and max-listening timers pending, live buffer populated), the
empty-query fast path leaves the listening flag set, both timers pending,
and the buffer untouched — the controller does not return fully to Idle as
the claim states. -/
theorem claim2_counterexample :
    trimS (removeWakeWord (String.intercalate " " ["hey mira"])) = "" ∧
    exListening.isProcessingQuery = false ∧
    (processQuery stDefault exListening 10000
      (FetchOutcome.ok ["hey mira"]) 11000).1.isListeningToQuery = true ∧
    (processQuery stDefault exListening 10000
      (FetchOutcome.ok ["hey mira"]) 11000).1.pendingMax ≠ [] ∧
    (processQuery stDefault exListening 10000
      (FetchOutcome.ok ["hey mira"]) 11000).1.pendingSettle ≠ [] ∧
    (processQuery stDefault exListening 10000
      (FetchOutcome.ok ["hey mira"]) 11000).1.transcriptProcessor ≠
        TranscriptProcessor.clearTP := by
  decide

/-- C2 witness: the amended theorem applied at a concrete state and
transcript. -/
theorem claim2_witness :
    processQuery stDefault (initialState stDefault) 10000
      (FetchOutcome.ok ["hey mira"]) 11000 =
      (initialState stDefault,
       [TMAction.fetchTranscript
          (durationSecondsOf (initialState stDefault) 10000 11000),
        TMAction.showTextWall "No query provided." 5000]) :=
  (claim2_empty_query_amended stDefault (initialState stDefault) 10000
    ["hey mira"] 11000 (by decide) (by decide)).1

/-! ## Claim C10: ensureTranscriptionUnsubscribed -/

/-- C10.  `ensureTranscriptionUnsubscribed` never drops the subscription
while a listening turn is open (with the turn open it is a no-op), is a
no-op when already unsubscribed, and clears the subscription exactly when
one is active and no turn is open. -/
theorem claim10_unsubscribe_guarded (s : TMState) :
    (s.isListeningToQuery = true →
      ensureTranscriptionUnsubscribed s = (s, [])) ∧
    (s.subscribed = false →
      ensureTranscriptionUnsubscribed s = (s, [])) ∧
    (s.subscribed = true → s.isListeningToQuery = false →
      ensureTranscriptionUnsubscribed s =
        ({ s with subscribed := false }, [TMAction.unsubscribeCall])) := by
  refine ⟨fun h => ?_, fun h => ?_, fun h1 h2 => ?_⟩ <;>
    simp [ensureTranscriptionUnsubscribed, *]

/-- C10 witness: the theorem applied at a reachable listening state and at
the subscribed initial state. -/
theorem claim10_witness :
    ensureTranscriptionUnsubscribed exListening = (exListening, []) ∧
    ensureTranscriptionUnsubscribed (initialState stDefault) =
      ({ initialState stDefault with subscribed := false },
       [TMAction.unsubscribeCall]) :=
  ⟨(claim10_unsubscribe_guarded exListening).1 (by decide),
   (claim10_unsubscribe_guarded (initialState stDefault)).2.2
     (by decide) (by decide)⟩

/-! ## Claim C8: bounded photo wait -/

/-- C8.  `getPhoto` returns the cached photo when one is resolved;
otherwise it races the outstanding promise against a 3000 ms timer and
yields `none` when the promise does not settle within the bound or when no
fetch is outstanding — so query dispatch is never blocked beyond the
bound. -/
theorem claim8_photo_wait_bounded (ap : Option ActivePhoto)
    (r : Option (Nat × Nat)) :
    (∀ p d, ap = some p → p.photoData = some d → getPhoto ap r = some d) ∧
    (∀ p, ap = some p → p.photoData = none → p.hasPromise = true →
      getPhoto ap r = photoRace3000 r) ∧
    (∀ t d, r = some (t, d) → 3000 < t → photoRace3000 r = none) ∧
    (r = none → photoRace3000 r = none) ∧
    (ap = none → getPhoto ap r = none) := by
  refine ⟨?_, ?_, ?_, ?_, ?_⟩
  · intro p d hap hd; subst hap; simp [getPhoto, hd]
  · intro p hap hd hp; subst hap; simp [getPhoto, hd, hp]
  · intro t d hr ht; subst hr; simp [photoRace3000, Nat.not_le.mpr ht]
  · intro hr; subst hr; rfl
  · intro hap; subst hap; rfl

/-- C8 witness: the theorem applied at a slow promise (resolving after
5000 ms, beyond the bound) and at a cached photo. -/
theorem claim8_witness :
    getPhoto (some ⟨true, none, 0⟩) (some (5000, 7)) = none ∧
    getPhoto (some ⟨true, some 42, 0⟩) (some (5000, 7)) = some 42 := by
  constructor
  · have h := claim8_photo_wait_bounded (some ⟨true, none, 0⟩) (some (5000, 7))
    rw [h.2.1 _ rfl rfl rfl, h.2.2.1 5000 7 rfl (by decide)]
  · exact (claim8_photo_wait_bounded (some ⟨true, some 42, 0⟩)
      (some (5000, 7))).1 _ 42 rfl rfl

/-! ## Claim C9: head-gate drop -/

/-- C9.  With `wake_requires_head_up` enabled and no listening turn open,
a wake-word transcription arriving outside the head-up wake window is
dropped with no state change and no action: no transition to Listening
occurs. -/
theorem claim9_head_gate_drop (st : Settings) (s : TMState) (text : String)
    (isFinal : Bool) (now : Nat)
    (hg : st.wakeRequiresHeadUp = true)
    (hp : s.isProcessingQuery = false)
    (hl : s.isListeningToQuery = false)
    (hw : containsWakeWordIn (cleanText text) = true)
    (hwin : s.headWakeWindowUntilMs < now) :
    handleTranscription st s text isFinal now = (s, []) := by
  have hwin' : (decide (now ≤ s.headWakeWindowUntilMs)) = false :=
    decide_eq_false (Nat.not_le.mpr hwin)
  simp [handleTranscription, hp, hl, hg, hw, hwin']

/-- C9 witness: the theorem applied to a wake-word event arriving at the
initial head-gated state, whose wake window has never been opened. -/
theorem claim9_witness :
    handleTranscription stHeadGate (initialState stHeadGate)
      "hey mira what time is it" true 500 =
      (initialState stHeadGate, []) :=
  claim9_head_gate_drop stHeadGate (initialState stHeadGate)
    "hey mira what time is it" true 500 rfl (by decide) (by decide)
    (by decide) (by decide)

/-! ## Claim C4: settle-timer selection -/

/-- C4.  Every transcription event processed while listening first cancels
the previously scheduled settle timer (when one exists) and then schedules
a new one whose duration is exactly 10000 ms for a final event whose
normalized text ends with a wake-word variant, 1500 ms for a final event
with trailing content, and 3000 ms for a non-final event: the action
trace ends with the cancellation followed by the new scheduling, and the
new timer is the one the state now references. -/
theorem claim4_settle_timer_selection (st : Settings) (s : TMState)
    (text : String) (isFinal : Bool) (now : Nat)
    (hp : s.isProcessingQuery = false) (hl : s.isListeningToQuery = true) :
    (handleTranscription st s text isFinal now).2 =
      ((photoStep st.hasCamera s.activePhoto now).2 ++
        (displayStep s.transcriptProcessor text isFinal).2) ++
      (match s.timeoutId with
       | some oldId => [TMAction.clearSettleTimer oldId]
       | none => []) ++
      [TMAction.setSettleTimer s.nextTimerId
        (if isFinal then
          (if endsWithWakeWord (cleanText text) then 10000 else 1500)
         else 3000)] ∧
    (handleTranscription st s text isFinal now).1.timeoutId =
      some s.nextTimerId := by
  constructor <;>
    cases ht : s.timeoutId <;>
      by_cases h0 : s.transcriptionStartTime = 0 <;>
        simp [handleTranscription, hp, hl, ht, h0]

/-- C4 witness: the theorem applied in the reachable listening state
`exListening` to a final event ending in a wake word (settle timer 1 is
cancelled, a 10000 ms timer 2 is scheduled). -/
theorem claim4_witness :
    (handleTranscription stDefault exListening "and also hey mira" true
        2000).2 =
      ((photoStep stDefault.hasCamera exListening.activePhoto 2000).2 ++
        (displayStep exListening.transcriptProcessor "and also hey mira"
          true).2) ++
      (match exListening.timeoutId with
       | some oldId => [TMAction.clearSettleTimer oldId]
       | none => []) ++
      [TMAction.setSettleTimer exListening.nextTimerId
        (if (true : Bool) then
          (if endsWithWakeWord (cleanText "and also hey mira") then 10000
           else 1500)
         else 3000)] ∧
    (handleTranscription stDefault exListening "and also hey mira" true
        2000).1.timeoutId = some exListening.nextTimerId :=
  claim4_settle_timer_selection stDefault exListening "and also hey mira"
    true 2000 (by decide) (by decide)

/-! ## Claim C1: single-flight invariant -/

theorem countInvokeAgent_append (a b : List TMAction) :
    countInvokeAgent (a ++ b) = countInvokeAgent a + countInvokeAgent b :=
  List.countP_append _ _ _

theorem handleTranscription_drop (st : Settings) (s : TMState)
    (text : String) (isFinal : Bool) (now : Nat)
    (hp : s.isProcessingQuery = true) :
    handleTranscription st s text isFinal now = (s, []) := by
  simp [handleTranscription, hp]

theorem processQuery_of_processing (st : Settings) (s : TMState) (d : Nat)
    (fr : FetchOutcome) (now : Nat) (hp : s.isProcessingQuery = true) :
    (processQuery st s d fr now).1 = s ∧
    countInvokeAgent (processQuery st s d fr now).2 = 0 := by
  cases fr <;>
    simp [processQuery, hp, countInvokeAgent, List.countP_cons]

theorem processQuery_le_one (st : Settings) (s : TMState) (d : Nat)
    (fr : FetchOutcome) (now : Nat) :
    countInvokeAgent (processQuery st s d fr now).2 ≤ 1 := by
  cases fr with
  | fail => simp [processQuery, countInvokeAgent, List.countP_cons]
  | invalid => simp [processQuery, countInvokeAgent, List.countP_cons]
  | ok segments =>
    by_cases hp : s.isProcessingQuery = true
    · simp [processQuery, hp, countInvokeAgent, List.countP_cons]
    · simp only [Bool.not_eq_true] at hp
      by_cases hq : trimS (removeWakeWord (String.intercalate " " segments)) = "" <;>
        by_cases ha : (st.speakResponse || !st.hasDisplay) = true <;>
          simp [processQuery, hp, hq, ha, countInvokeAgent, List.countP_cons,
            List.countP_append]

theorem clearTimerField_no_agent (f : Option Nat) (p : List TimerInfo) :
    countInvokeAgent (clearTimerField f p TMAction.clearSettleTimer).2.2 = 0 := by
  cases f <;> rfl

theorem step_processing (st : Settings) (s : TMState) (e : Ev)
    (hp : s.isProcessingQuery = true) (he : isResponseObservation e = false) :
    (step st s e).1.isProcessingQuery = true ∧
    countInvokeAgent (step st s e).2 = 0 := by
  cases e with
  | trans text isFinal now =>
    simp [step, handleTranscription_drop st s text isFinal now hp, hp,
      countInvokeAgent]
  | settleFire id now fr =>
    simp only [step, settleFireStep]
    cases hf : s.pendingSettle.find? (fun t => t.id == id) with
    | none => simp [hp, countInvokeAgent]
    | some t =>
      have h := processQuery_of_processing st
        { s with pendingSettle := s.pendingSettle.filter (fun u => u.id != id) }
        t.duration fr now hp
      simp only [h.1, h.2]
      exact ⟨hp, trivial⟩
  | maxFire id now fr =>
    simp only [step, maxFireStep]
    cases hf : s.pendingMax.find? (fun t => t.id == id) with
    | none => simp [hp, countInvokeAgent]
    | some t =>
      set s1 : TMState :=
        { s with pendingMax := s.pendingMax.filter (fun u => u.id != id) } with hs1
      set cs := clearTimerField s1.timeoutId s1.pendingSettle
        TMAction.clearSettleTimer with hcs
      have h := processQuery_of_processing st
        { s1 with timeoutId := none, pendingSettle := cs.2.1 } 15000 fr now hp
      simp only [h.1, countInvokeAgent_append, h.2, Nat.add_zero]
      exact ⟨hp, clearTimerField_no_agent _ _⟩
  | agentDone resp now => simp [isResponseObservation] at he
  | cooldownFire => simp [isResponseObservation] at he

theorem run_processing (st : Settings) (evs : List Ev) :
    ∀ (s : TMState), s.isProcessingQuery = true →
    (∀ e ∈ evs, isResponseObservation e = false) →
    (run st s evs).1.isProcessingQuery = true ∧
    countInvokeAgent (run st s evs).2 = 0 := by
  induction evs with
  | nil => intro s hp _; exact ⟨hp, rfl⟩
  | cons e es ih =>
    intro s hp he
    have hstep := step_processing st s e hp (he e (List.mem_cons_self e es))
    have hrest := ih (step st s e).1 hstep.1
      (fun e' he' => he e' (List.mem_cons_of_mem e he'))
    refine ⟨hrest.1, ?_⟩
    show countInvokeAgent ((step st s e).2 ++ (run st (step st s e).1 es).2) = 0
    rw [countInvokeAgent_append, hstep.2, hrest.2]

/-- C1.  Single-flight invariant: while `isProcessingQuery` is set,
`handleTranscription` drops every transcription without mutating state or
emitting any action; any single `processQuery` call invokes the agent
backend at most once; and from a processing state, any sequence of
transcriptions and timer firings containing no response observation
invokes the agent backend zero times and leaves the processing flag set —
so at most one query is in the Processing state at any instant. -/
theorem claim1_single_flight (st : Settings) (s : TMState) (evs : List Ev)
    (hp : s.isProcessingQuery = true)
    (he : ∀ e ∈ evs, isResponseObservation e = false) :
    countInvokeAgent (run st s evs).2 = 0 ∧
    (run st s evs).1.isProcessingQuery = true ∧
    (∀ (text : String) (isFinal : Bool) (now : Nat),
      handleTranscription st s text isFinal now = (s, [])) ∧
    (∀ (s2 : TMState) (d : Nat) (fr : FetchOutcome) (now : Nat),
      countInvokeAgent (processQuery st s2 d fr now).2 ≤ 1) := by
  have hr := run_processing st evs s hp he
  exact ⟨hr.2, hr.1,
    fun text isFinal now => handleTranscription_drop st s text isFinal now hp,
    fun s2 d fr now => processQuery_le_one st s2 d fr now⟩

/-- C1 witness: the theorem applied in the reachable processing state
`exProcessing` to a burst of overlapping wake-word and timer events. -/
theorem claim1_witness :
    countInvokeAgent (run stDefault exProcessing
      [Ev.trans "hey mira again" true 2600,
       Ev.maxFire 0 16000 (FetchOutcome.ok ["hey mira again"]),
       Ev.settleFire 1 16100 (FetchOutcome.ok ["hey mira again"])]).2 = 0 ∧
    handleTranscription stDefault exProcessing "hey mira again" true 2600 =
      (exProcessing, []) := by
  have h := claim1_single_flight stDefault exProcessing
    [Ev.trans "hey mira again" true 2600,
     Ev.maxFire 0 16000 (FetchOutcome.ok ["hey mira again"]),
     Ev.settleFire 1 16100 (FetchOutcome.ok ["hey mira again"])]
    (by decide) (by decide)
  exact ⟨h.1, h.2.2.1 "hey mira again" true 2600⟩

/-! ## Claim C6: cooldown -/

theorem finallyStep_basic (st : Settings) (s : TMState) (now : Nat) :
    (finallyStep st s now).1.isProcessingQuery = s.isProcessingQuery ∧
    (finallyStep st s now).1.cooldownPending = true ∧
    (finallyStep st s now).1.isListeningToQuery = false ∧
    TMAction.setCooldownTimer 2000 ∈ (finallyStep st s now).2 := by
  by_cases h : (st.wakeRequiresHeadUp && decide (s.headWakeWindowUntilMs < now)) = true <;>
    by_cases h2 : s.subscribed = true <;>
      simp [finallyStep, ensureTranscriptionUnsubscribed, h, h2]

theorem agentDoneStep_basic (st : Settings) (s : TMState)
    (resp : AgentResponse) (now : Nat) (hin : s.agentInFlight = true) :
    (agentDoneStep st s resp now).1 =
      (finallyStep st { s with agentInFlight := false } now).1 ∧
    TMAction.setCooldownTimer 2000 ∈ (agentDoneStep st s resp now).2 := by
  constructor
  · simp [agentDoneStep, hin]
  · simp only [agentDoneStep, hin, if_true]
    exact List.mem_append_right _
      (finallyStep_basic st { s with agentInFlight := false } now).2.2.2

theorem handleTranscription_opens_turn (st : Settings) :
    ∀ (s2 : TMState) (text : String) (isFinal : Bool) (now : Nat),
    s2.isProcessingQuery = false → s2.isListeningToQuery = false →
    containsWakeWordIn (cleanText text) = true →
    (st.wakeRequiresHeadUp = false ∨ now ≤ s2.headWakeWindowUntilMs) →
    (handleTranscription st s2 text isFinal now).1.isListeningToQuery = true ∧
    (handleTranscription st s2 text isFinal now).1.turnGen = s2.turnGen + 1 := by
  intro s2 text isFinal now hp hl hw hg
  rcases hg with h | h
  · constructor <;>
      by_cases h0 : s2.transcriptionStartTime = 0 <;>
        cases ht : s2.timeoutId <;>
          simp [handleTranscription, hp, hl, hw, h, h0, ht]
  · have hd : decide (now ≤ s2.headWakeWindowUntilMs) = true := decide_eq_true h
    constructor <;>
      by_cases h0 : s2.transcriptionStartTime = 0 <;>
        cases ht : s2.timeoutId <;>
          simp [handleTranscription, hp, hl, hw, hd, h0, ht]

/-- C6.  After the agent response is rendered, the 2000 ms cooldown is
scheduled and `isProcessingQuery` stays true, so every transcription event
arriving before the cooldown fires — wake word or not — is dropped without
any state change; the cooldown firing re-arms `isProcessingQuery`, after
which a wake-word event (with the head gate disabled or its window open)
is accepted and opens a new listening turn. -/
theorem claim6_cooldown_rearming (st : Settings) (s : TMState)
    (resp : AgentResponse) (now1 : Nat)
    (hin : s.agentInFlight = true) (hp : s.isProcessingQuery = true) :
    (agentDoneStep st s resp now1).1.isProcessingQuery = true ∧
    (agentDoneStep st s resp now1).1.cooldownPending = true ∧
    TMAction.setCooldownTimer 2000 ∈ (agentDoneStep st s resp now1).2 ∧
    (∀ (text : String) (isFinal : Bool) (now : Nat),
      handleTranscription st (agentDoneStep st s resp now1).1 text isFinal now =
        ((agentDoneStep st s resp now1).1, [])) ∧
    (cooldownFireStep (agentDoneStep st s resp now1).1).1.isProcessingQuery =
      false ∧
    (∀ (s2 : TMState) (text : String) (isFinal : Bool) (now : Nat),
      s2.isProcessingQuery = false → s2.isListeningToQuery = false →
      containsWakeWordIn (cleanText text) = true →
      (st.wakeRequiresHeadUp = false ∨ now ≤ s2.headWakeWindowUntilMs) →
      (handleTranscription st s2 text isFinal now).1.isListeningToQuery = true ∧
      (handleTranscription st s2 text isFinal now).1.turnGen = s2.turnGen + 1) := by
  obtain ⟨heq, hmem⟩ := agentDoneStep_basic st s resp now1 hin
  obtain ⟨f1, f2, f3, f4⟩ :=
    finallyStep_basic st { s with agentInFlight := false } now1
  rw [heq]
  have hp1 : (finallyStep st { s with agentInFlight := false } now1).1.isProcessingQuery = true := by
    rw [f1]; exact hp
  refine ⟨hp1, f2, hmem, ?_, ?_, handleTranscription_opens_turn st⟩
  · intro text isFinal now
    exact handleTranscription_drop st _ text isFinal now hp1
  · simp [cooldownFireStep, f2]

/-- C6 witness: the theorem applied in the reachable dispatched state
`exProcessing`; after the response and the cooldown firing, a wake word
opens a new listening turn. -/
theorem claim6_witness :
    (agentDoneStep stDefault exProcessing
      (AgentResponse.text "It is noon.") 4000).1.isProcessingQuery = true ∧
    (cooldownFireStep exAfterResponse).1.isProcessingQuery = false ∧
    (handleTranscription stDefault (cooldownFireStep exAfterResponse).1
      "hey mira what now" true 7000).1.isListeningToQuery = true := by
  have h := claim6_cooldown_rearming stDefault exProcessing
    (AgentResponse.text "It is noon.") 4000 (by decide) (by decide)
  exact ⟨h.1, h.2.2.2.2.1,
    (h.2.2.2.2.2 (cooldownFireStep exAfterResponse).1 "hey mira what now"
      true 7000 (by decide) (by decide) (by decide) (Or.inl (by decide))).1⟩

/-! ## Claim C5: no orphan timers -/

theorem filter_id_nil {l : List TimerInfo} {id : Nat}
    (h : ∀ u ∈ l, u.id = id) :
    l.filter (fun u => u.id != id) = [] := by
  induction l with
  | nil => rfl
  | cons a l ih =>
    have ha : (a.id != id) = false := by
      simp [h a (List.mem_cons_self a l)]
    simp [List.filter_cons, ha,
      ih (fun u hu => h u (List.mem_cons_of_mem a hu))]

theorem TimerInv_of_nil {s : TMState} (h1 : s.pendingSettle = [])
    (h2 : s.pendingMax = []) : TimerInv s := by
  simp [TimerInv, h1, h2]

theorem settle_nil_of_not_listening {s : TMState} (hInv : TimerInv s)
    (h : s.isListeningToQuery = false) : s.pendingSettle = [] := by
  refine List.eq_nil_iff_forall_not_mem.mpr (fun t ht => ?_)
  have h2 := (hInv.2.2.1 t ht).2.1
  rw [h] at h2
  exact absurd h2 (by decide)

theorem max_nil_of_not_listening {s : TMState} (hInv : TimerInv s)
    (h : s.isListeningToQuery = false) : s.pendingMax = [] := by
  refine List.eq_nil_iff_forall_not_mem.mpr (fun t ht => ?_)
  have h2 := (hInv.2.2.2 t ht).2.1
  rw [h] at h2
  exact absurd h2 (by decide)

theorem settle_nil_of_field_none {s : TMState} (hInv : TimerInv s)
    (h : s.timeoutId = none) : s.pendingSettle = [] := by
  refine List.eq_nil_iff_forall_not_mem.mpr (fun t ht => ?_)
  have h2 := (hInv.2.2.1 t ht).2.2
  rw [h] at h2
  exact absurd h2 (by simp)

theorem max_nil_of_field_none {s : TMState} (hInv : TimerInv s)
    (h : s.maxListeningTimeoutId = none) : s.pendingMax = [] := by
  refine List.eq_nil_iff_forall_not_mem.mpr (fun t ht => ?_)
  have h2 := (hInv.2.2.2 t ht).2.2
  rw [h] at h2
  exact absurd h2 (by simp)

theorem settle_all_id {s : TMState} (hInv : TimerInv s) {id : Nat}
    (h : s.timeoutId = some id) : ∀ u ∈ s.pendingSettle, u.id = id := by
  intro u hu
  have h2 := (hInv.2.2.1 u hu).2.2
  rw [h] at h2
  exact (Option.some.inj h2).symm

theorem max_all_id {s : TMState} (hInv : TimerInv s) {id : Nat}
    (h : s.maxListeningTimeoutId = some id) :
    ∀ u ∈ s.pendingMax, u.id = id := by
  intro u hu
  have h2 := (hInv.2.2.2 u hu).2.2
  rw [h] at h2
  exact (Option.some.inj h2).symm

theorem clearSettle_nil {s : TMState} (hInv : TimerInv s) :
    (clearTimerField s.timeoutId s.pendingSettle
      TMAction.clearSettleTimer).2.1 = [] := by
  cases ht : s.timeoutId with
  | none => simp [clearTimerField, settle_nil_of_field_none hInv ht]
  | some id => simp [clearTimerField, filter_id_nil (settle_all_id hInv ht)]

theorem clearMax_nil {s : TMState} (hInv : TimerInv s) :
    (clearTimerField s.maxListeningTimeoutId s.pendingMax
      TMAction.clearMaxTimer).2.1 = [] := by
  cases ht : s.maxListeningTimeoutId with
  | none => simp [clearTimerField, max_nil_of_field_none hInv ht]
  | some id => simp [clearTimerField, filter_id_nil (max_all_id hInv ht)]

theorem processQuery_fields (st : Settings) (s : TMState) (d : Nat)
    (fr : FetchOutcome) (now : Nat) :
    (processQuery st s d fr now).1.pendingSettle = s.pendingSettle ∧
    (processQuery st s d fr now).1.pendingMax = s.pendingMax ∧
    (processQuery st s d fr now).1.isListeningToQuery = s.isListeningToQuery ∧
    (processQuery st s d fr now).1.turnGen = s.turnGen ∧
    (processQuery st s d fr now).1.timeoutId = s.timeoutId ∧
    (processQuery st s d fr now).1.maxListeningTimeoutId =
      s.maxListeningTimeoutId := by
  cases fr with
  | fail => simp [processQuery]
  | invalid => simp [processQuery]
  | ok segments =>
    by_cases hp : s.isProcessingQuery = true
    · simp [processQuery, hp]
    · simp only [Bool.not_eq_true] at hp
      by_cases hq : trimS (removeWakeWord (String.intercalate " " segments)) = "" <;>
        simp [processQuery, hp, hq]

theorem TimerInv_processQuery {st : Settings} {s : TMState} {d : Nat}
    {fr : FetchOutcome} {now : Nat} (hInv : TimerInv s) :
    TimerInv (processQuery st s d fr now).1 := by
  obtain ⟨f1, f2, f3, f4, f5, f6⟩ := processQuery_fields st s d fr now
  unfold TimerInv
  rw [f1, f2, f3, f4, f5, f6]
  exact hInv

theorem TimerInv_set_settle_nil {s : TMState} (hInv : TimerInv s) :
    TimerInv ({ s with pendingSettle := [] } : TMState) :=
  ⟨by simp, hInv.2.1, by simp, fun t ht => hInv.2.2.2 t ht⟩

theorem TimerInv_set_max_nil {s : TMState} (hInv : TimerInv s) :
    TimerInv ({ s with pendingMax := [] } : TMState) :=
  ⟨hInv.1, by simp, fun t ht => hInv.2.2.1 t ht, by simp⟩

theorem TimerInv_agentFlag {s : TMState} (b : Bool) (hInv : TimerInv s) :
    TimerInv ({ s with agentInFlight := b } : TMState) :=
  ⟨hInv.1, hInv.2.1, fun t ht => hInv.2.2.1 t ht, fun t ht => hInv.2.2.2 t ht⟩

theorem TimerInv_settleFire (st : Settings) (s : TMState) (id : Nat)
    (fr : FetchOutcome) (now : Nat) (hInv : TimerInv s) :
    TimerInv (settleFireStep st s id fr now).1 := by
  unfold settleFireStep
  cases hf : s.pendingSettle.find? (fun t => t.id == id) with
  | none => exact hInv
  | some t =>
    have htmem := List.mem_of_find?_eq_some hf
    have hid : t.id = id := by
      have h2 := List.find?_some hf
      simpa using h2
    have hfield : s.timeoutId = some t.id := (hInv.2.2.1 t htmem).2.2
    have hfil : s.pendingSettle.filter (fun u => u.id != id) = [] := by
      refine filter_id_nil (fun u hu => ?_)
      rw [← hid]
      exact settle_all_id hInv hfield u hu
    simp only [hfil]
    exact TimerInv_processQuery (TimerInv_set_settle_nil hInv)

theorem TimerInv_maxFire (st : Settings) (s : TMState) (id : Nat)
    (fr : FetchOutcome) (now : Nat) (hInv : TimerInv s) :
    TimerInv (maxFireStep st s id fr now).1 := by
  unfold maxFireStep
  cases hf : s.pendingMax.find? (fun t => t.id == id) with
  | none => exact hInv
  | some t =>
    have htmem := List.mem_of_find?_eq_some hf
    have hid : t.id = id := by
      have h2 := List.find?_some hf
      simpa using h2
    have hfield : s.maxListeningTimeoutId = some t.id := (hInv.2.2.2 t htmem).2.2
    have hfil : s.pendingMax.filter (fun u => u.id != id) = [] := by
      refine filter_id_nil (fun u hu => ?_)
      rw [← hid]
      exact max_all_id hInv hfield u hu
    simp only [hfil]
    refine TimerInv_processQuery (TimerInv_of_nil ?_ rfl)
    show (clearTimerField s.timeoutId s.pendingSettle
      TMAction.clearSettleTimer).2.1 = []
    exact clearSettle_nil hInv

theorem finallyStep_pending_nil (st : Settings) (s : TMState) (now : Nat)
    (hInv : TimerInv s) :
    (finallyStep st s now).1.pendingSettle = [] ∧
    (finallyStep st s now).1.pendingMax = [] ∧
    (finallyStep st s now).1.isListeningToQuery = false := by
  have h1 := clearSettle_nil hInv
  have h2 := clearMax_nil hInv
  by_cases h : (st.wakeRequiresHeadUp && decide (s.headWakeWindowUntilMs < now)) = true <;>
    by_cases hsub : s.subscribed = true <;>
      simp [finallyStep, ensureTranscriptionUnsubscribed, h, hsub, h1, h2]

theorem TimerInv_agentDone (st : Settings) (s : TMState)
    (resp : AgentResponse) (now : Nat) (hInv : TimerInv s) :
    TimerInv (agentDoneStep st s resp now).1 := by
  unfold agentDoneStep
  by_cases hin : s.agentInFlight = true
  · obtain ⟨h1, h2, h3⟩ := finallyStep_pending_nil st
      { s with agentInFlight := false } now (TimerInv_agentFlag false hInv)
    simp only [hin, if_true]
    exact TimerInv_of_nil h1 h2
  · simp only [hin, if_false]
    exact hInv

theorem TimerInv_cooldown (s : TMState) (hInv : TimerInv s) :
    TimerInv (cooldownFireStep s).1 := by
  unfold cooldownFireStep
  by_cases hc : s.cooldownPending = true
  · simp only [hc, if_true]
    exact ⟨hInv.1, hInv.2.1, fun t ht => hInv.2.2.1 t ht,
      fun t ht => hInv.2.2.2 t ht⟩
  · simp only [hc, if_false]
    exact hInv

theorem TimerInv_handleTranscription (st : Settings) (s : TMState)
    (text : String) (isFinal : Bool) (now : Nat) (hInv : TimerInv s) :
    TimerInv (handleTranscription st s text isFinal now).1 := by
  by_cases hp : s.isProcessingQuery = true
  · rw [handleTranscription_drop st s text isFinal now hp]
    exact hInv
  simp only [Bool.not_eq_true] at hp
  by_cases hl : s.isListeningToQuery = true
  · cases ht : s.timeoutId with
    | some oldId =>
      by_cases h0 : s.transcriptionStartTime = 0 <;>
        { simp [handleTranscription, hp, hl, ht, h0, TimerInv]
          refine ⟨settle_all_id hInv ht, hInv.2.1, ?_, ?_⟩
          · rintro t (⟨htm, hne⟩ | rfl)
            · exact absurd (settle_all_id hInv ht t htm) hne
            · exact ⟨rfl, rfl⟩
          · intro t htm
            exact ⟨(hInv.2.2.2 t htm).1, (hInv.2.2.2 t htm).2.2⟩ }
    | none =>
      by_cases h0 : s.transcriptionStartTime = 0 <;>
        { simp [handleTranscription, hp, hl, ht, h0, TimerInv]
          refine ⟨settle_nil_of_field_none hInv ht, hInv.2.1, ?_, ?_⟩
          · rintro t (htm | rfl)
            · rw [settle_nil_of_field_none hInv ht] at htm
              exact absurd htm (List.not_mem_nil t)
            · exact ⟨rfl, rfl⟩
          · intro t htm
            exact ⟨(hInv.2.2.2 t htm).1, (hInv.2.2.2 t htm).2.2⟩ }
  · simp only [Bool.not_eq_true] at hl
    have hps := settle_nil_of_not_listening hInv hl
    have hpm := max_nil_of_not_listening hInv hl
    by_cases hw : containsWakeWordIn (cleanText text) = true
    · by_cases hg : (st.wakeRequiresHeadUp &&
        !(decide (now ≤ s.headWakeWindowUntilMs))) = true
      · simp [handleTranscription, hp, hl, hw, hg]
        exact hInv
      · cases ht : s.timeoutId <;>
          by_cases h0 : s.transcriptionStartTime = 0 <;>
            simp [handleTranscription, hp, hl, hw, hg, ht, h0, hps, hpm,
              TimerInv]
    · simp [handleTranscription, hp, hl, hw]
      exact hInv

theorem TimerInv_step (st : Settings) (s : TMState) (e : Ev)
    (hInv : TimerInv s) : TimerInv (step st s e).1 := by
  cases e with
  | trans text isFinal now =>
    exact TimerInv_handleTranscription st s text isFinal now hInv
  | settleFire id now fr => exact TimerInv_settleFire st s id fr now hInv
  | maxFire id now fr => exact TimerInv_maxFire st s id fr now hInv
  | agentDone resp now => exact TimerInv_agentDone st s resp now hInv
  | cooldownFire => exact TimerInv_cooldown s hInv

theorem TimerInv_initialState (st : Settings) :
    TimerInv (initialState st) := by
  by_cases hw : st.wakeRequiresHeadUp = true <;>
    simp [initialState, initTranscriptionSubscription,
      ensureTranscriptionSubscribed, ensureTranscriptionUnsubscribed,
      baseState, hw, TimerInv]

theorem TimerInv_run (st : Settings) (evs : List Ev) :
    ∀ (s : TMState), TimerInv s → TimerInv (run st s evs).1 := by
  induction evs with
  | nil => intro s hInv; exact hInv
  | cons e es ih =>
    intro s hInv
    exact ih (step st s e).1 (TimerInv_step st s e hInv)

/-- C5.  No-orphan-timer invariant: in every controller state reachable
from the initial state by transcriptions, timer firings and query
completions, each timer slot was cleared before being replaced — at most
one settle timer and one max-listening timer are pending — and every
pending settle or max-listening timer belongs to the currently open
listening turn (its generation is the current one, the turn is still
open, and the corresponding id field references it).  Since the machine
lets only pending timers fire, no settle or max-listening timer can fire
after the listening turn it was scheduled for has ended. -/
theorem claim5_no_orphan_timers (st : Settings) (evs : List Ev) :
    TimerInv (run st (initialState st) evs).1 :=
  TimerInv_run st evs (initialState st) (TimerInv_initialState st)

/-- C5 witness: the invariant evaluated on a concrete run covering a full
turn (wake word, final update, settle firing, agent response, cooldown). -/
theorem claim5_witness :
    TimerInv (run stDefault (initialState stDefault)
      [Ev.trans "hey mira hello" false 0,
       Ev.trans "hey mira hello there" true 400,
       Ev.settleFire 2 1900 (FetchOutcome.ok ["hey mira hello there"]),
       Ev.agentDone (AgentResponse.text "hi") 3000,
       Ev.cooldownFire]).1 :=
  claim5_no_orphan_timers stDefault
    [Ev.trans "hey mira hello" false 0,
     Ev.trans "hey mira hello there" true 400,
     Ev.settleFire 2 1900 (FetchOutcome.ok ["hey mira hello there"]),
     Ev.agentDone (AgentResponse.text "hi") 3000,
     Ev.cooldownFire]
